import Mathlib

/-!
Verification development for the startup-scraper repository (src/app.py).

The Python source is shallowly embedded: Python `str` values are modelled
as `List Char` (called `Str` below), SQLAlchemy tables as Lean lists of
row structures, `db.session.add` + `db.session.commit` as pure state
transformations, and `requests.get` as an abstract `fetch : Str → Option Str`
returning the response body (`none` models a raised exception — timeout or
connection error; note that `requests.get` does not raise on a non-2xx
status, so a non-2xx response is still a `some body`).  Redirects are not
modelled: a response's final URL is the requested URL.
-/

namespace Scraper

/-- Python `str`, modelled as a list of characters. -/
abbrev Str := List Char

/-- Python `s.split(c)` for a single-character separator: splits on every
occurrence of `c`, keeping empty components (`"".split(c) == ['']`). -/
def splitChar (c : Char) : List Char → List (List Char)
  | [] => [[]]
  | x :: xs =>
    if x = c then [] :: splitChar c xs
    else
      match splitChar c xs with
      | [] => [[x]]
      | p :: ps => (x :: p) :: ps

/-- Python truthiness of a string: non-empty. -/
def truthyStr (s : Str) : Bool := !s.isEmpty

/-- Python truthiness of an `Optional[str]`: `None` and `""` are falsy. -/
def truthyOptStr : Option Str → Bool
  | none => false
  | some s => !s.isEmpty

/-- Python `s.strip()` (whitespace from both ends), as used on the
scraped company name in `scrape_google_maps` (src/app.py:106). -/
def pyStrip (s : Str) : Str :=
  ((s.dropWhile Char.isWhitespace).reverse.dropWhile Char.isWhitespace).reverse

/-- Lowercasing, Python `s.lower()` restricted to ASCII data. -/
def lowerStr (s : Str) : Str := s.map Char.toLower

/-- The domain reduction of the GitHub collector (src/app.py:130-131):
`blog_url.split('/')[2]` guarded by
`blog_url.startswith(('http://', 'https://'))`.  `none` means the guard
failed and the candidate is skipped. -/
def extract_github (s : Str) : Option Str :=
  if "http://".toList.isPrefixOf s || "https://".toList.isPrefixOf s then
    (splitChar '/' s)[2]?
  else none

/-- The domain reduction of the Reddit collector (src/app.py:154):
`submission.url.split('/')[2]` with no guard; `none` models the
`IndexError` raised when the URL has fewer than three `/`-components. -/
def extract_reddit (s : Str) : Option Str :=
  (splitChar '/' s)[2]?

/-- Modelled from the spec (§4.1, glossary): the canonical normalization —
strip the scheme, cut the host at the first `/` or `:` (path/port), and
lowercase.  The source has no such function; this definition exists only
to compare the spec's uniqueness key with what the code actually stores. -/
def spec_normalize (s : Str) : Str :=
  let rest :=
    if "http://".toList.isPrefixOf s then s.drop 7
    else if "https://".toList.isPrefixOf s then s.drop 8
    else s
  lowerStr (rest.takeWhile (fun c => !(c == '/') && !(c == ':')))

/-! ### The entity store (SQLAlchemy models, src/app.py:31-47) -/

/-- A row of the `Startup` table (src/app.py:31-36).  `domain` carries a
`unique=True` constraint; `created_at` is irrelevant to the claims and
omitted. -/
structure Startup where
  id : Nat
  name : Str
  domain : Str
  linkedin : Option Str
deriving DecidableEq

/-- A row of the `Contact` table (src/app.py:38-42). -/
structure Contact where
  email : Str
  startup_id : Nat
  source : Str
deriving DecidableEq

/-- A row of the `Technology` table (src/app.py:44-47). -/
structure Technology where
  tech_name : Str
  startup_id : Nat
deriving DecidableEq

/-- The `Startup` table. -/
abbrev Store := List Startup

/-- Whether the table already holds a row with this (raw, case-sensitive)
domain string — the condition under which the SQLite UNIQUE constraint on
`Startup.domain` fires. -/
def hasDomain (st : Store) (d : Str) : Bool := st.any (fun s => s.domain == d)

/-- A candidate organization as built by a collector, before
`db.session.add`. -/
structure Candidate where
  name : Str
  domain : Str
  linkedin : Option Str
deriving DecidableEq

/-- `db.session.add(Startup(...)); db.session.commit()`: the commit appends
a fresh row, or raises `IntegrityError` (`none`) when a row with the same
raw domain string already exists (UNIQUE constraint).  Ids autoincrement. -/
def insertStartup (st : Store) (c : Candidate) : Option Store :=
  if hasDomain st c.domain then none
  else some (st ++ [⟨st.length + 1, c.name, c.domain, c.linkedin⟩])

/-- A sequence of attempted inserts, each commit's failure leaving the
table unchanged (the collectors catch the exception; see `scrape_github`
and `scrape_reddit` below for the per-collector abort behaviour). -/
def upsertRun (st : Store) (cs : List Candidate) : Store :=
  cs.foldl (fun s c => (insertStartup s c).getD s) st

/-! ### Collectors (src/app.py:86-165) -/

/-- A GitHub search item together with the fields the code reads from the
profile fetched at `item['url']` (src/app.py:127-135). -/
structure GhItem where
  login : Str
  blog : Str
  linkedin_username : Option Str
deriving DecidableEq

/-- `scrape_github` (src/app.py:120-142): for each item, if the profile's
blog URL passes the scheme guard, its `split('/')[2]` component becomes the
domain and a `Startup` row is committed; an `IntegrityError` propagates to
the enclosing `except`, aborting the remaining items. -/
def scrape_github : List GhItem → Store → Store
  | [], st => st
  | item :: rest, st =>
    match extract_github item.blog with
    | none => scrape_github rest st
    | some domain =>
      match insertStartup st ⟨item.login, domain, item.linkedin_username⟩ with
      | some st' => scrape_github rest st'
      | none => st

/-- A Reddit submission (src/app.py:153-158). -/
structure RedditPost where
  title : Str
  url : Str
deriving DecidableEq

/-- `scrape_reddit` (src/app.py:145-165): the domain is
`submission.url.split('/')[2]` (an `IndexError` or `IntegrityError` aborts
the remaining submissions); `linkedin` is always `None`. -/
def scrape_reddit : List RedditPost → Store → Store
  | [], st => st
  | p :: rest, st =>
    match extract_reddit p.url with
    | none => st
    | some domain =>
      match insertStartup st ⟨p.title.take 255, domain, none⟩ with
      | some st' => scrape_reddit rest st'
      | none => st

/-- A parsed result card of the maps page: the `h3` element's text when
present (src/app.py:106; a missing `h3` raises `AttributeError`). -/
structure MapsCompany where
  h3 : Option Str
deriving DecidableEq

/-- `scrape_google_maps` (src/app.py:86-117): `domain` is the constant
`None` (src/app.py:107), so the `if name and domain:` guard decides
whether a row is committed.  A missing `h3` aborts via the enclosing
`except`. -/
def scrape_google_maps : List MapsCompany → Store → Store
  | [], st => st
  | comp :: rest, st =>
    match comp.h3 with
    | none => st
    | some txt =>
      let name := pyStrip txt
      let domain : Option Str := none
      if truthyStr name && truthyOptStr domain then
        match domain with
        | some d =>
          match insertStartup st ⟨name, d, none⟩ with
          | some st' => scrape_google_maps rest st'
          | none => st
        | none => scrape_google_maps rest st
      else scrape_google_maps rest st

/-! ### Enrichment (src/app.py:167-223) -/

/-- Character class `[a-zA-Z0-9_.+-]` of the email regex's user part. -/
def isEmailA (c : Char) : Bool := c.isAlphanum || c == '_' || c == '.' || c == '+' || c == '-'

/-- Character class `[a-zA-Z0-9-]` of the email regex's domain part. -/
def isEmailB (c : Char) : Bool := c.isAlphanum || c == '-'

/-- Character class `[a-zA-Z0-9-.]` of the email regex's final part. -/
def isEmailC (c : Char) : Bool := c.isAlphanum || c == '-' || c == '.'

/-- One greedy match of `[a-zA-Z0-9_.+-]+@[a-zA-Z0-9-]+\.[a-zA-Z0-9-.]+`
anchored at the head of the input; returns the match and the remainder.
Greedy maximal runs are exact here: none of the three classes contains the
following delimiter (`@` or `.`), so the regex never backtracks. -/
def matchEmailAt (l : Str) : Option (Str × Str) :=
  let (u, r1) := l.span isEmailA
  if u.isEmpty then none
  else match r1 with
    | '@' :: r2 =>
      let (dom, r3) := r2.span isEmailB
      if dom.isEmpty then none
      else match r3 with
        | '.' :: r4 =>
          let (tld, r5) := r4.span isEmailC
          if tld.isEmpty then none
          else some (u ++ '@' :: (dom ++ '.' :: tld), r5)
        | _ => none
    | _ => none

/-- `re.findall` scan: try a match at each position, emit non-overlapping
matches left to right, otherwise advance one character.  Fuel decreases at
every step and every step consumes at least one character, so the input
length is enough fuel. -/
def findEmailsAux : Nat → Str → List Str
  | 0, _ => []
  | _ + 1, [] => []
  | fuel + 1, c :: rest =>
    match matchEmailAt (c :: rest) with
    | some (m, rem) => m :: findEmailsAux fuel rem
    | none => findEmailsAux fuel rest

/-- `re.findall(r"[a-zA-Z0-9_.+-]+@[a-zA-Z0-9-]+\.[a-zA-Z0-9-.]+", s)`
(src/app.py:175,186). -/
def py_findall_emails (s : Str) : List Str := findEmailsAux s.length s

/-- `"https://"` URL scheme used by enrichment requests. -/
def https_pre : Str := "https://".toList

/-- `f"https://{domain}"` (src/app.py:174). -/
def root_url (d : Str) : Str := https_pre ++ d

/-- `f"https://{domain}{path}"` (src/app.py:183-184). -/
def page_url (d p : Str) : Str := https_pre ++ d ++ p

/-- `f"https://{domain}/jobs"` (src/app.py:207). -/
def jobs_url (d : Str) : Str := page_url d "/jobs".toList

/-- `common_paths` (src/app.py:169). -/
def common_paths : List Str :=
  ["/contact".toList, "/about".toList, "/careers".toList, "/contact-us".toList]

/-- The `for path in common_paths:` loop of `discover_emails`
(src/app.py:182-186), with the `visited` set threaded through: a page is
fetched only if its URL is not in `visited`, and each response's URL is
then added.  `none` models a raised fetch exception, which aborts the whole
invocation.  On success, the concatenation of the pages' regex matches is
returned (the Python `emails += ...` accumulation). -/
def path_loop (d : Str) (fetch : Str → Option Str) :
    List Str → List Str → Option (List Str)
  | _, [] => some []
  | visited, p :: rest =>
    if page_url d p ∈ visited then path_loop d fetch visited rest
    else
      match fetch (page_url d p) with
      | none => none
      | some body =>
        (path_loop d fetch (visited ++ [page_url d p]) rest).map
          (fun es => py_findall_emails body ++ es)

/-- First-occurrence deduplication with an accumulator of already-seen
elements; `dedupFrom [] l` models the element set of Python `set(l)`
(membership and multiplicity-one are faithful; Python's iteration order is
unspecified, so a canonical order is chosen). -/
def dedupFrom (seen : List Str) : List Str → List Str
  | [] => []
  | e :: rest =>
    if e ∈ seen then dedupFrom seen rest
    else e :: dedupFrom (e :: seen) rest

/-- Python `set(l)` (src/app.py:189). -/
def py_set (l : List Str) : List Str := dedupFrom [] l

/-- `discover_emails` (src/app.py:168-196), returning the `Contact` rows
committed by the invocation.  Any fetch exception jumps to the outer
`except` before `db.session.commit()` (src/app.py:193) runs, so a failed
invocation commits nothing.  On success the first loop (src/app.py:177-179)
adds one row per root-page match (source `"root"`, duplicates included),
and the second loop (src/app.py:189-191) adds one row per distinct email
across all pages, its `source` being the leftover loop variable `path`,
i.e. `"/contact-us"`.  Every row carries the hardcoded `startup_id=1`. -/
def discover_emails (d : Str) (fetch : Str → Option Str) : List Contact :=
  match fetch (root_url d) with
  | none => []
  | some body =>
    let root_emails := py_findall_emails body
    let root_contacts : List Contact :=
      root_emails.map (fun e => ⟨e, 1, "root".toList⟩)
    match path_loop d fetch [] common_paths with
    | none => []
    | some path_emails =>
      let emails := root_emails ++ path_emails
      root_contacts ++ (py_set emails).map (fun e => (⟨e, 1, "/contact-us".toList⟩ : Contact))

/-- `tech_patterns` (src/app.py:200-204). -/
def tech_patterns : List (Str × List Str) :=
  [("frameworks".toList,
    ["react".toList, "vue".toList, "angular".toList, "django".toList,
     "flask".toList, "rails".toList]),
   ("hosting".toList,
    ["heroku".toList, "aws".toList, "azure".toList, "firebase".toList,
     "netlify".toList]),
   ("ecommerce".toList,
    ["shopify".toList, "woocommerce".toList, "bigcommerce".toList])]

/-- Python `pattern in text`: substring test. -/
def containsSub (pat text : Str) : Bool := text.tails.any (fun t => pat.isPrefixOf t)

/-- The `detected` list of `detect_technology` (src/app.py:210-214): all
`(category, pattern)` pairs whose pattern occurs in the given text, in
table order. -/
def detected_pairs (text : Str) : List (Str × Str) :=
  tech_patterns.flatMap
    (fun cp => (cp.2.filter (fun p => containsSub p text)).map (fun p => (cp.1, p)))

/-- The signature table flattened to `(category, token)` pairs. -/
def signature_table : List (Str × Str) :=
  tech_patterns.flatMap (fun cp => cp.2.map (fun p => (cp.1, p)))

/-- `detect_technology` (src/app.py:199-223), returning the `Technology`
rows committed by the invocation: the single `/jobs` page is fetched, its
body lowercased, and one row per detected pair is committed with the
hardcoded `startup_id=1`; a fetch exception commits nothing and is
swallowed by the outer `except`. -/
def detect_technology (d : Str) (fetch : Str → Option Str) : List Technology :=
  match fetch (jobs_url d) with
  | none => []
  | some body => (detected_pairs (lowerStr body)).map (fun ct => ⟨ct.2, 1⟩)

/-! ### Job submission and export (src/app.py:226-289) -/

/-- The `scraping_status` global dict (src/app.py:228,293). -/
structure ScrapeStatus where
  active : Bool
  progress : Nat
  total : Nat
deriving DecidableEq

/-- The dict `run_scraper` installs on entry (src/app.py:228). -/
def run_scraper_init : ScrapeStatus := ⟨true, 0, 30⟩

/-- The response of the `/start_scrape` route. -/
inductive StartResponse where
  | rejected (httpStatus : Nat)
  | started (location : Str)
deriving DecidableEq

/-- `start_scrape` (src/app.py:253-262) together with the immediate effect
of the `run_scraper` thread it spawns (src/app.py:226-237): an empty
location is rejected with HTTP 400 and nothing else happens; otherwise the
request is accepted unconditionally — the current status is never
consulted — `run_scraper` resets the status dict and starts one thread per
collector.  The result is (response, status after the reset, number of
collector threads started). -/
def start_scrape (location : Str) (st : ScrapeStatus) :
    StartResponse × ScrapeStatus × Nat :=
  if location.isEmpty then (.rejected 400, st, 0)
  else (.started location, run_scraper_init, 3)

/-- The CSV header row (src/app.py:272). -/
def export_header : List Str :=
  ["Company Name".toList, "Domain".toList, "Emails".toList,
   "Technologies".toList, "LinkedIn".toList]

/-- `';'.join(...)` (src/app.py:276-277). -/
def semi_join (l : List Str) : Str := List.intercalate ";".toList l

/-- The rows written by `export_data` (src/app.py:268-289).  The source as
written cannot run: `StringIO` and `make_response` are referenced but never
imported, and `startup.contacts` / `startup.technologies` are accessed but
no relationship is declared on the models — both raise at runtime.  This
definition renders the written loop with those names given their evident
meaning (the foreign-key joins and an in-memory row buffer); `csv.writer`
renders a `None` linkedin as the empty string. -/
def export_rows (startups : List Startup) (contacts : List Contact)
    (techs : List Technology) : List (List Str) :=
  export_header :: startups.map (fun s =>
    [s.name, s.domain,
     semi_join ((contacts.filter (fun c => c.startup_id == s.id)).map (fun c => c.email)),
     semi_join ((techs.filter (fun t => t.startup_id == s.id)).map (fun t => t.tech_name)),
     s.linkedin.getD []])

/-! ### Helper lemmas -/

lemma mem_splitChar (c : Char) (l : List Char) :
    ∀ part ∈ splitChar c l, c ∉ part := by
  induction l with
  | nil =>
    intro part hp
    simp only [splitChar, List.mem_singleton] at hp
    simp [hp]
  | cons x xs ih =>
    intro part hp
    simp only [splitChar] at hp
    by_cases hx : x = c
    · rw [if_pos hx] at hp
      rcases List.mem_cons.mp hp with h | h
      · simp [h]
      · exact ih part h
    · rw [if_neg hx] at hp
      cases hsp : splitChar c xs with
      | nil =>
        rw [hsp] at hp
        simp only [List.mem_singleton] at hp
        subst hp
        intro hc
        exact hx (List.mem_singleton.mp hc).symm
      | cons p ps =>
        rw [hsp] at hp
        rcases List.mem_cons.mp hp with h | h
        · subst h
          intro hc
          rcases List.mem_cons.mp hc with h' | h'
          · exact hx h'.symm
          · exact ih p (hsp ▸ List.mem_cons_self p ps) h'
        · exact ih part (hsp ▸ List.mem_cons_of_mem p h)

lemma splitChar_of_not_mem {c : Char} {l : List Char} (h : c ∉ l) :
    splitChar c l = [l] := by
  induction l with
  | nil => rfl
  | cons x xs ih =>
    have hx : ¬x = c := fun e => h (e ▸ List.mem_cons_self x xs)
    have hxs : c ∉ xs := fun hc => h (List.mem_cons_of_mem x hc)
    simp only [splitChar, if_neg hx, ih hxs]

lemma extract_github_no_slash {s h : Str} (he : extract_github s = some h) :
    '/' ∉ h := by
  unfold extract_github at he
  split at he
  · exact mem_splitChar '/' s h (List.getElem?_mem he)
  · exact absurd he (by simp)

lemma extract_reddit_no_slash {s h : Str} (he : extract_reddit s = some h) :
    '/' ∉ h := by
  unfold extract_reddit at he
  exact mem_splitChar '/' s h (List.getElem?_mem he)

/-! ### C4 -/

/-- C4 (corrected), counterexample: the code's domain reduction is not
idempotent.  On `"http://acme.io/page"` it yields the host `"acme.io"`,
but applied to its own output it yields nothing — the GitHub variant's
scheme guard fails, and the Reddit variant's `split('/')[2]` raises
`IndexError` — so `normalize(normalize(d)) ≠ normalize(d)` at this input
for both collectors. -/
theorem c4_counterexample :
    extract_github "http://acme.io/page".toList = some "acme.io".toList ∧
    extract_github "acme.io".toList = none ∧
    extract_reddit "http://acme.io/page".toList = some "acme.io".toList ∧
    extract_reddit "acme.io".toList = none := by decide

/-- C4 (corrected), amended claim: the domain reduction actually used as
the uniqueness key is anti-idempotent on its successful inputs: whenever
it succeeds and yields a host `h`, applying it to `h` fails, because a
component produced by `split('/')` contains no `/` — so it can neither
start with a URL scheme (GitHub variant) nor have a third `/`-separated
component (Reddit variant). -/
theorem c4_normalize_anti_idempotent :
    (∀ s h, extract_github s = some h → extract_github h = none) ∧
    (∀ s h, extract_reddit s = some h → extract_reddit h = none) := by
  constructor
  · intro s h he
    have hns := extract_github_no_slash he
    unfold extract_github
    have h1 : ¬"http://".toList.isPrefixOf h = true := by
      intro hp
      rw [ List.isPrefixOf_iff_prefix] at hp
      exact hns (hp.subset (by decide))
    have h2 : ¬"https://".toList.isPrefixOf h = true := by
      intro hp
      rw [ List.isPrefixOf_iff_prefix] at hp
      exact hns (hp.subset (by decide))
    rw [if_neg (by rw [Bool.or_eq_true]; exact not_or.mpr ⟨h1, h2⟩)]
  · intro s h he
    have hns := extract_reddit_no_slash he
    unfold extract_reddit
    rw [splitChar_of_not_mem hns]
    rfl

/-- Witness for C4's amended theorem at a concrete input. -/
theorem c4_normalize_anti_idempotent_witness :
    extract_github "https://foo.dev/a/b".toList = some "foo.dev".toList ∧
    extract_github "foo.dev".toList = none :=
  ⟨by decide, c4_normalize_anti_idempotent.1 "https://foo.dev/a/b".toList "foo.dev".toList (by decide)⟩

/-! ### C10 -/

/-- C10 (confirmed): the maps-search collector persists nothing: its
`domain` local is the constant `None`, so `if name and domain:` never
holds and the `Startup` table is returned unchanged for every input. -/
theorem c10_google_maps_no_persist :
    ∀ (companies : List MapsCompany) (st : Store),
      scrape_google_maps companies st = st := by
  intro companies
  induction companies with
  | nil => intro st; rfl
  | cons comp rest ih =>
    intro st
    obtain ⟨h3⟩ := comp
    cases h3 with
    | none => rfl
    | some txt =>
      simp only [scrape_google_maps, truthyOptStr, Bool.and_false, if_neg]
      exact ih st

/-! ### Store lemmas for C1 and C5 -/

lemma hasDomain_false {st : Store} {d : Str} (h : hasDomain st d = false) :
    ∀ s ∈ st, s.domain ≠ d := by
  intro s hs
  simp only [hasDomain, List.any_eq_false, beq_iff_eq] at h
  exact h s hs

lemma filter_domain_eq_nil {st : Store} {d : Str} (h : hasDomain st d = false) :
    st.filter (fun s => s.domain == d) = [] := by
  rw [List.filter_eq_nil_iff]
  intro s hs
  simp only [beq_iff_eq]
  exact hasDomain_false h s hs

/-- After a sequence of attempted inserts, the rows carrying a given raw
domain string are: unchanged if the starting table already had that
domain; otherwise exactly the first candidate in the sequence with that
domain (or none) — its name and linkedin are frozen at insertion time. -/
lemma upsertRun_rows (cs : List Candidate) (st : Store) (d : Str) :
    ((upsertRun st cs).filter (fun s => s.domain == d)).map (fun s => (s.name, s.linkedin)) =
      if hasDomain st d then
        (st.filter (fun s => s.domain == d)).map (fun s => (s.name, s.linkedin))
      else
        match cs.find? (fun c => c.domain == d) with
        | none => []
        | some c => [(c.name, c.linkedin)] := by
  induction cs generalizing st with
  | nil =>
    simp only [upsertRun, List.foldl_nil, List.find?_nil]
    by_cases h : hasDomain st d
    · rw [if_pos h]
    · rw [if_neg h]
      rw [filter_domain_eq_nil (Bool.not_eq_true _ |>.mp h)]
      rfl
  | cons c cs ih =>
    simp only [upsertRun, List.foldl_cons] at *
    by_cases hins : hasDomain st c.domain
    · -- IntegrityError: the commit fails and the table is unchanged
      have hst : (insertStartup st c).getD st = st := by
        simp [insertStartup, hins]
      rw [hst, ih st]
      by_cases hd : hasDomain st d
      · rw [if_pos hd, if_pos hd]
      · rw [if_neg hd, if_neg hd]
        have hcd : (c.domain == d) = false := by
          simp only [beq_eq_false_iff_ne, ne_eq]
          intro he
          exact hd (he ▸ hins)
        simp only [List.find?, hcd]
    · -- fresh row appended
      have hst : (insertStartup st c).getD st =
          st ++ [Startup.mk (st.length + 1) c.name c.domain c.linkedin] := by
        simp [insertStartup, hins]
      rw [hst, ih]
      by_cases hd : c.domain = d
      · subst hd
        have hnew : hasDomain
            (st ++ [Startup.mk (st.length + 1) c.name c.domain c.linkedin]) c.domain = true := by
          simp [hasDomain, List.any_append]
        have hfind : (c.domain == c.domain) = true := by simp
        rw [if_pos hnew, if_neg hins]
        simp only [List.find?, hfind]
        rw [List.filter_append, filter_domain_eq_nil (Bool.not_eq_true _ |>.mp hins)]
        simp
      · have hsame : hasDomain
            (st ++ [Startup.mk (st.length + 1) c.name c.domain c.linkedin]) d = hasDomain st d := by
          simp [hasDomain, List.any_append, hd]
        have hfil : (st ++ [Startup.mk (st.length + 1) c.name c.domain c.linkedin]).filter
            (fun s => s.domain == d) = st.filter (fun s => s.domain == d) := by
          rw [List.filter_append]
          simp [beq_eq_false_iff_ne, hd]
        have hcd : (c.domain == d) = false := by
          simp [beq_eq_false_iff_ne, hd]
        rw [hsame, hfil]
        simp only [List.find?, hcd]

/-! ### C1 -/

/-- C1 (corrected), counterexample: the code never normalizes domains —
the uniqueness constraint compares raw strings.  Two GitHub candidates
whose blog hosts differ only in case (`acme.io` vs `ACME.io`) share the
same normalized domain (in the spec's sense) yet are both committed: the
store ends with two Organization rows for that normalized domain, not
one. -/
theorem c1_counterexample :
    ((scrape_github
        [⟨"A".toList, "http://acme.io/x".toList, none⟩,
         ⟨"B".toList, "http://ACME.io/x".toList, none⟩] []).filter
      (fun s => spec_normalize s.domain == "acme.io".toList)).length = 2 := by decide

/-- C1 (corrected), amended claim: uniqueness holds only per raw
(case-sensitive) domain string.  For any sequence of attempted candidate
inserts starting from an empty table, at most one row exists per raw
domain, and — the second commit with the same raw domain failing on the
UNIQUE constraint — the retained name is that of the first candidate with
that raw domain (first-writer-wins on name at this granularity). -/
theorem c1_upsert_uniqueness_amended :
    ∀ (cs : List Candidate) (d : Str),
      ((upsertRun [] cs).filter (fun s => s.domain == d)).length ≤ 1 ∧
      (∀ c, cs.find? (fun c => c.domain == d) = some c →
        ((upsertRun [] cs).filter (fun s => s.domain == d)).map (fun s => s.name) = [c.name]) := by
  intro cs d
  have h := upsertRun_rows cs [] d
  rw [if_neg (by simp [hasDomain])] at h
  constructor
  · have hlen : ((upsertRun [] cs).filter (fun s => s.domain == d)).length =
        (((upsertRun [] cs).filter (fun s => s.domain == d)).map
          (fun s => (s.name, s.linkedin))).length := (List.length_map _ _).symm
    rw [hlen, h]
    cases cs.find? (fun c => c.domain == d) <;> simp
  · intro c hc
    rw [hc] at h
    have hmap : ((upsertRun [] cs).filter (fun s => s.domain == d)).map (fun s => s.name) =
        (((upsertRun [] cs).filter (fun s => s.domain == d)).map
          (fun s => (s.name, s.linkedin))).map Prod.fst := by
      rw [List.map_map]; rfl
    rw [hmap, h]
    rfl

/-- Witness for C1's amended theorem at a concrete input. -/
theorem c1_upsert_uniqueness_amended_witness :
    ([(⟨"A".toList, "acme.io".toList, none⟩ : Candidate),
      ⟨"B".toList, "acme.io".toList, none⟩].find?
        (fun c => c.domain == "acme.io".toList) = some ⟨"A".toList, "acme.io".toList, none⟩) ∧
    ((upsertRun []
        [⟨"A".toList, "acme.io".toList, none⟩,
         ⟨"B".toList, "acme.io".toList, none⟩]).filter
      (fun s => s.domain == "acme.io".toList)).map (fun s => s.name) = ["A".toList] :=
  ⟨by decide,
   (c1_upsert_uniqueness_amended
      [⟨"A".toList, "acme.io".toList, none⟩, ⟨"B".toList, "acme.io".toList, none⟩]
      "acme.io".toList).2 ⟨"A".toList, "acme.io".toList, none⟩ (by decide)⟩

/-! ### C5 -/

/-- C5 (corrected), counterexample: there is no fill-if-empty merge.  A
first candidate for `acme.io` with no linkedin is committed; the later
candidate carrying `linkedin="acme-hq"` fails wholesale on the UNIQUE
domain constraint, so the stored linkedin stays empty instead of being
filled. -/
theorem c5_counterexample :
    (scrape_github
        [⟨"A".toList, "http://acme.io/x".toList, none⟩,
         ⟨"B".toList, "http://acme.io/y".toList, some "acme-hq".toList⟩] []).map
      (fun s => s.linkedin) = [none] := by decide

/-- C5 (corrected), amended claim: the stored linkedin is frozen at first
insertion.  A later candidate with the same raw domain is rejected
entirely by the UNIQUE constraint, so a populated linkedin never fills an
existing empty one; an empty linkedin never clears an existing value only
because no upsert of any kind happens — the row's linkedin always equals
that of the first candidate with its raw domain. -/
theorem c5_linkedin_first_writer_amended :
    ∀ (cs : List Candidate) (d : Str) (c : Candidate),
      cs.find? (fun c => c.domain == d) = some c →
      ((upsertRun [] cs).filter (fun s => s.domain == d)).map (fun s => s.linkedin) =
        [c.linkedin] := by
  intro cs d c hc
  have h := upsertRun_rows cs [] d
  rw [if_neg (by simp [hasDomain]), hc] at h
  have hmap : ((upsertRun [] cs).filter (fun s => s.domain == d)).map (fun s => s.linkedin) =
      (((upsertRun [] cs).filter (fun s => s.domain == d)).map
        (fun s => (s.name, s.linkedin))).map Prod.snd := by
    rw [List.map_map]; rfl
  rw [hmap, h]
  rfl

/-- Witness for C5's amended theorem at a concrete input: the empty
linkedin arrived first and the populated one is lost. -/
theorem c5_linkedin_first_writer_amended_witness :
    ([(⟨"A".toList, "acme.io".toList, none⟩ : Candidate),
      ⟨"B".toList, "acme.io".toList, some "acme-hq".toList⟩].find?
        (fun c => c.domain == "acme.io".toList) = some ⟨"A".toList, "acme.io".toList, none⟩) ∧
    ((upsertRun []
        [⟨"A".toList, "acme.io".toList, none⟩,
         ⟨"B".toList, "acme.io".toList, some "acme-hq".toList⟩]).filter
      (fun s => s.domain == "acme.io".toList)).map (fun s => s.linkedin) = [none] :=
  ⟨by decide,
   c5_linkedin_first_writer_amended
      [⟨"A".toList, "acme.io".toList, none⟩,
       ⟨"B".toList, "acme.io".toList, some "acme-hq".toList⟩]
      "acme.io".toList ⟨"A".toList, "acme.io".toList, none⟩ (by decide)⟩

/-! ### C2 -/

/-- C2 (code_bug): every `Contact` and `Technology` row committed by an
enrichment invocation carries the hardcoded `startup_id=1`
(src/app.py:178,190,217), regardless of which organization's domain was
probed — contradicting the contract that results attach to the probed
organization (the spec itself flags this as a source bug in §9). -/
theorem c2_enrichment_attaches_to_id_one :
    (∀ (d : Str) (fetch : Str → Option Str) (c : Contact),
        c ∈ discover_emails d fetch → c.startup_id = 1) ∧
    (∀ (d : Str) (fetch : Str → Option Str) (t : Technology),
        t ∈ detect_technology d fetch → t.startup_id = 1) := by
  constructor
  · intro d fetch c hc
    unfold discover_emails at hc
    cases hroot : fetch (root_url d) with
    | none => rw [hroot] at hc; simp at hc
    | some body =>
      rw [hroot] at hc
      cases hpl : path_loop d fetch [] common_paths with
      | none => rw [hpl] at hc; simp at hc
      | some es =>
        rw [hpl] at hc
        simp only [List.mem_append, List.mem_map] at hc
        rcases hc with ⟨e, _, rfl⟩ | ⟨e, _, rfl⟩ <;> rfl
  · intro d fetch t ht
    unfold detect_technology at ht
    cases hj : fetch (jobs_url d) with
    | none => rw [hj] at ht; simp at ht
    | some body =>
      rw [hj] at ht
      simp only [List.mem_map] at ht
      rcases ht with ⟨ct, _, rfl⟩
      rfl

/-- Witness for C2's theorem: a concrete enrichment of `acme.io` whose
discovered contact is stored under `startup_id = 1`. -/
theorem c2_enrichment_attaches_to_id_one_witness :
    ((⟨"a@b.co".toList, 1, "root".toList⟩ : Contact) ∈
      discover_emails "acme.io".toList
        (fun u => if u = root_url "acme.io".toList then some "a@b.co".toList else some [])) ∧
    (⟨"a@b.co".toList, 1, "root".toList⟩ : Contact).startup_id = 1 :=
  ⟨by decide,
   c2_enrichment_attaches_to_id_one.1 "acme.io".toList
     (fun u => if u = root_url "acme.io".toList then some "a@b.co".toList else some [])
     ⟨"a@b.co".toList, 1, "root".toList⟩ (by decide)⟩

/-! ### C7 -/

lemma page_url_inj {d : Str} : Function.Injective (page_url d) := by
  intro p q h
  unfold page_url at h
  exact List.append_cancel_left h

lemma path_loop_fail (d : Str) (fetch : Str → Option Str) :
    ∀ (ps visited : List Str),
      (∀ p ∈ ps, page_url d p ∉ visited) →
      (ps.map (page_url d)).Nodup →
      (∃ p ∈ ps, fetch (page_url d p) = none) →
      path_loop d fetch visited ps = none := by
  intro ps
  induction ps with
  | nil =>
    intro visited _ _ hex
    simp at hex
  | cons q rest ih =>
    intro visited hvis hnd hex
    have hq : page_url d q ∉ visited := hvis q (List.mem_cons_self q rest)
    simp only [path_loop]
    rw [if_neg hq]
    cases hf : fetch (page_url d q) with
    | none => rfl
    | some body =>
      have hex' : ∃ p ∈ rest, fetch (page_url d p) = none := by
        rcases hex with ⟨p, hp, hpf⟩
        rcases List.mem_cons.mp hp with rfl | hp'
        · rw [hf] at hpf
          exact absurd hpf (by simp)
        · exact ⟨p, hp', hpf⟩
      have hmnd : (page_url d q ∉ rest.map (page_url d)) ∧ (rest.map (page_url d)).Nodup := by
        rw [List.map_cons] at hnd
        exact List.nodup_cons.mp hnd
      have hvis' : ∀ p ∈ rest, page_url d p ∉ visited ++ [page_url d q] := by
        intro p hp hin
        rcases List.mem_append.mp hin with h | h
        · exact hvis p (List.mem_cons_of_mem q hp) h
        · exact hmnd.1 ((List.mem_singleton.mp h) ▸ List.mem_map_of_mem (page_url d) hp)
      rw [ih (visited ++ [page_url d q]) hvis' hmnd.2 hex']
      rfl

/-- C7 (corrected), counterexample: the root probe succeeds and finds an
email, only the `/contact` probe fails — yet the invocation stores
nothing at all, instead of keeping the root page's contribution and
continuing with the remaining paths. -/
theorem c7_counterexample :
    discover_emails "acme.io".toList
      (fun u => if u = root_url "acme.io".toList then some "a@b.co".toList
                else if u = page_url "acme.io".toList "/contact".toList then none
                else some []) = [] ∧
    py_findall_emails "a@b.co".toList = ["a@b.co".toList] := by decide

/-- C7 (corrected), amended claim: in email discovery a single probe
failure is fatal to the whole invocation — the exception skips the final
commit, so zero contacts are stored even from earlier successful probes;
probing does not continue.  What survives of the original claim: no error
escapes to the caller, a total failure stores nothing, and technology
detection (whose only probe is `/jobs`) stores nothing when that probe
fails. -/
theorem c7_probe_failure_aborts_amended :
    (∀ (d : Str) (fetch : Str → Option Str),
        fetch (root_url d) = none → discover_emails d fetch = []) ∧
    (∀ (d : Str) (fetch : Str → Option Str),
        (∃ p ∈ common_paths, fetch (page_url d p) = none) →
        discover_emails d fetch = []) ∧
    (∀ (d : Str) (fetch : Str → Option Str),
        fetch (jobs_url d) = none → detect_technology d fetch = []) := by
  refine ⟨?_, ?_, ?_⟩
  · intro d fetch h
    unfold discover_emails
    rw [h]
  · intro d fetch hex
    unfold discover_emails
    cases hroot : fetch (root_url d) with
    | none => rfl
    | some body =>
      have hpl : path_loop d fetch [] common_paths = none := by
        apply path_loop_fail d fetch common_paths []
        · intro p _ hmem
          simp at hmem
        · exact List.Nodup.map page_url_inj (by decide)
        · exact hex
      rw [hpl]
  · intro d fetch h
    unfold detect_technology
    rw [h]

/-- Witness for C7's amended theorem: the concrete failing-probe fetch of
the counterexample indeed yields an empty store. -/
theorem c7_probe_failure_aborts_amended_witness :
    (∃ p ∈ common_paths,
      (fun u => if u = root_url "acme.io".toList then some "a@b.co".toList
                else if u = page_url "acme.io".toList "/contact".toList then none
                else some ([] : Str)) (page_url "acme.io".toList p) = none) ∧
    discover_emails "acme.io".toList
      (fun u => if u = root_url "acme.io".toList then some "a@b.co".toList
                else if u = page_url "acme.io".toList "/contact".toList then none
                else some []) = [] :=
  ⟨by decide,
   c7_probe_failure_aborts_amended.2.1 "acme.io".toList
     (fun u => if u = root_url "acme.io".toList then some "a@b.co".toList
               else if u = page_url "acme.io".toList "/contact".toList then none
               else some []) (by decide)⟩

/-! ### C6 -/

lemma mem_dedupFrom {e : Str} :
    ∀ (l seen : List Str), e ∈ l → e ∉ seen → e ∈ dedupFrom seen l := by
  intro l
  induction l with
  | nil =>
    intro seen h
    simp at h
  | cons x xs ih =>
    intro seen hmem hseen
    simp only [dedupFrom]
    by_cases hx : x ∈ seen
    · rw [if_pos hx]
      rcases List.mem_cons.mp hmem with rfl | h
      · exact absurd hx hseen
      · exact ih seen h hseen
    · rw [if_neg hx]
      rcases List.mem_cons.mp hmem with rfl | h
      · exact List.mem_cons_self _ _
      · by_cases hex : e = x
        · subst hex
          exact List.mem_cons_self _ _
        · exact List.mem_cons_of_mem x (ih (x :: seen) h (by simp [hseen, hex]))

/-- C6 (corrected), counterexample: one successful invocation in which the
single email `a@b.co`, found once on the root page, is stored twice for
the same organization — once by the root loop (source `root`) and once by
the `set(emails)` loop (source `/contact-us`): two rows for one
(organization, email) pair. -/
theorem c6_counterexample :
    (discover_emails "acme.io".toList
        (fun u => if u = root_url "acme.io".toList then some "a@b.co".toList else some [])).countP
      (fun c => c.email == "a@b.co".toList && c.startup_id == 1) = 2 := by decide

/-- C6 (corrected), amended claim: contacts are not deduplicated against
the stored rows.  In any successful invocation, every email matched on the
root page is committed once per occurrence by the first loop and once more
by the deduplicated second loop, so the same (organization, email) pair is
stored at least twice. -/
theorem c6_contacts_not_deduplicated_amended :
    ∀ (d : Str) (fetch : Str → Option Str) (body : Str) (es : List Str) (e : Str),
      fetch (root_url d) = some body →
      path_loop d fetch [] common_paths = some es →
      e ∈ py_findall_emails body →
      2 ≤ (discover_emails d fetch).countP
            (fun c => c.email == e && c.startup_id == 1) := by
  intro d fetch body es e hroot hpl he
  unfold discover_emails
  rw [hroot, hpl]
  simp only
  rw [List.countP_append, List.countP_map, List.countP_map]
  have h1 : 0 < (py_findall_emails body).countP
      ((fun c : Contact => c.email == e && c.startup_id == 1) ∘
        (fun e' => (⟨e', 1, "root".toList⟩ : Contact))) :=
    List.countP_pos_iff.mpr ⟨e, he, by simp⟩
  have h2 : 0 < (py_set (py_findall_emails body ++ es)).countP
      ((fun c : Contact => c.email == e && c.startup_id == 1) ∘
        (fun e' => (⟨e', 1, "/contact-us".toList⟩ : Contact))) := by
    refine List.countP_pos_iff.mpr ⟨e, ?_, by simp⟩
    exact mem_dedupFrom _ [] (List.mem_append.mpr (Or.inl he)) (by simp)
  omega

/-- Witness for C6's amended theorem at the counterexample's fetch. -/
theorem c6_contacts_not_deduplicated_amended_witness :
    ((fun u => if u = root_url "acme.io".toList then some "a@b.co".toList else some ([] : Str))
        (root_url "acme.io".toList) = some "a@b.co".toList) ∧
    (path_loop "acme.io".toList
        (fun u => if u = root_url "acme.io".toList then some "a@b.co".toList else some [])
        [] common_paths = some []) ∧
    ("a@b.co".toList ∈ py_findall_emails "a@b.co".toList) ∧
    2 ≤ (discover_emails "acme.io".toList
          (fun u => if u = root_url "acme.io".toList then some "a@b.co".toList else some [])).countP
        (fun c => c.email == "a@b.co".toList && c.startup_id == 1) :=
  ⟨by decide, by decide, by decide,
   c6_contacts_not_deduplicated_amended "acme.io".toList
     (fun u => if u = root_url "acme.io".toList then some "a@b.co".toList else some [])
     "a@b.co".toList [] "a@b.co".toList (by decide) (by decide) (by decide)⟩

/-! ### C8 -/

lemma containsSub_iff (pat text : Str) : containsSub pat text = true ↔ pat <:+: text := by
  unfold containsSub
  rw [List.any_eq_true]
  constructor
  · rintro ⟨t, ht, hp⟩
    rw [ List.isPrefixOf_iff_prefix] at hp
    exact List.infix_iff_prefix_suffix.mpr ⟨t, hp, (List.mem_tails t text).mp ht⟩
  · intro h
    rcases List.infix_iff_prefix_suffix.mp h with ⟨t, hp, hs⟩
    refine ⟨t, (List.mem_tails t text).mpr hs, ?_⟩
    rw [ List.isPrefixOf_iff_prefix]
    exact hp

lemma signature_tokens_lower : ∀ ct ∈ signature_table, lowerStr ct.2 = ct.2 := by decide

/-- C8 (confirmed): a detected pair is exactly a pair of the fixed
signature table whose token occurs case-insensitively (token and body both
lowercased) as a substring of the `/jobs` body; and `detect_technology`
consults no page other than `/jobs` — its output depends only on the
fetch result at the `/jobs` URL. -/
theorem c8_detect_technology_spec :
    (∀ (body : Str) (c t : Str),
        (c, t) ∈ detected_pairs (lowerStr body) ↔
          ((c, t) ∈ signature_table ∧ lowerStr t <:+: lowerStr body)) ∧
    (∀ (d : Str) (f g : Str → Option Str),
        f (jobs_url d) = g (jobs_url d) →
        detect_technology d f = detect_technology d g) := by
  constructor
  · intro body c t
    constructor
    · intro h
      simp only [detected_pairs, List.mem_flatMap, List.mem_map, List.mem_filter] at h
      rcases h with ⟨cp, hcp, p, ⟨hp, hsub⟩, heq⟩
      rw [Prod.mk.injEq] at heq
      obtain ⟨rfl, rfl⟩ := heq
      have hmem : ((cp.1, p) : Str × Str) ∈ signature_table := by
        simp only [signature_table, List.mem_flatMap, List.mem_map]
        exact ⟨cp, hcp, p, hp, rfl⟩
      refine ⟨hmem, ?_⟩
      have hl := signature_tokens_lower (cp.1, p) hmem
      rw [hl]
      exact (containsSub_iff p (lowerStr body)).mp hsub
    · rintro ⟨hmem, hinf⟩
      have hl := signature_tokens_lower (c, t) hmem
      rw [hl] at hinf
      simp only [signature_table, List.mem_flatMap, List.mem_map] at hmem
      rcases hmem with ⟨cp, hcp, p, hp, heq⟩
      rw [Prod.mk.injEq] at heq
      obtain ⟨rfl, rfl⟩ := heq
      simp only [detected_pairs, List.mem_flatMap, List.mem_map, List.mem_filter]
      exact ⟨cp, hcp, p, ⟨hp, (containsSub_iff p (lowerStr body)).mpr hinf⟩, rfl⟩
  · intro d f g h
    unfold detect_technology
    rw [h]

/-- Witness for C8's theorem: two fetchers agreeing on `/jobs` (one of
them refusing every other page) produce the same detected technologies. -/
theorem c8_detect_technology_spec_witness :
    ((fun _ : Str => some "We use React on Heroku".toList) (jobs_url "acme.io".toList) =
      (fun u => if u = jobs_url "acme.io".toList
                then some "We use React on Heroku".toList else none)
        (jobs_url "acme.io".toList)) ∧
    detect_technology "acme.io".toList (fun _ => some "We use React on Heroku".toList) =
      detect_technology "acme.io".toList
        (fun u => if u = jobs_url "acme.io".toList
                  then some "We use React on Heroku".toList else none) :=
  ⟨by decide,
   c8_detect_technology_spec.2 "acme.io".toList
     (fun _ => some "We use React on Heroku".toList)
     (fun u => if u = jobs_url "acme.io".toList
               then some "We use React on Heroku".toList else none) (by decide)⟩

/-! ### C3 -/

/-- C3 (corrected), counterexample: with the status dict showing an active
job (`active=True, progress=5`), a submission for `"berlin"` is accepted
(`started`), three collector threads are spawned, and the status dict is
reset — it does not remain unchanged, and no `JobAlreadyRunning` rejection
exists in the code. -/
theorem c3_counterexample :
    start_scrape "berlin".toList ⟨true, 5, 30⟩ =
      (StartResponse.started "berlin".toList, run_scraper_init, 3) ∧
    run_scraper_init ≠ ⟨true, 5, 30⟩ := by decide

/-- C3 (corrected), amended claim: a submission with a non-empty location
is always accepted while a job is running: the route never consults the
status, answers `started`, spawns the three collector tasks, and the
spawned `run_scraper` re-initializes the status dict (there is no
`collectorsRemaining` and no `JobAlreadyRunning` in the code; only an
empty location is rejected, with HTTP 400). -/
theorem c3_submit_while_running_amended :
    ∀ (loc : Str) (st : ScrapeStatus),
      st.active = true → loc ≠ [] →
      (start_scrape loc st).1 = StartResponse.started loc ∧
      (start_scrape loc st).2.1 = run_scraper_init ∧
      (start_scrape loc st).2.2 = 3 := by
  intro loc st _ hloc
  have hne : loc.isEmpty = false := by
    cases loc with
    | nil => exact absurd rfl hloc
    | cons x xs => rfl
  unfold start_scrape
  rw [hne]
  exact ⟨rfl, rfl, rfl⟩

/-- Witness for C3's amended theorem at the counterexample's state. -/
theorem c3_submit_while_running_amended_witness :
    ((⟨true, 5, 30⟩ : ScrapeStatus).active = true ∧ "berlin".toList ≠ []) ∧
    (start_scrape "berlin".toList ⟨true, 5, 30⟩).1 = StartResponse.started "berlin".toList ∧
    (start_scrape "berlin".toList ⟨true, 5, 30⟩).2.1 = run_scraper_init ∧
    (start_scrape "berlin".toList ⟨true, 5, 30⟩).2.2 = 3 :=
  ⟨⟨by decide, by decide⟩,
   c3_submit_while_running_amended "berlin".toList ⟨true, 5, 30⟩ (by decide) (by decide)⟩

/-! ### C9 -/

/-- C9 (code_bug): evaluating the written export logic at the failing
input (a store with zero organizations) under the evident meaning of the
unresolved names: the document consists of exactly the header row.  The
source itself cannot reach this point — `StringIO` and `make_response`
are never imported and the `contacts`/`technologies` relationships are
never declared, so the route raises `NameError` instead of returning this
document. -/
theorem c9_export_empty_store_header_only :
    ∀ (cs : List Contact) (ts : List Technology),
      export_rows [] cs ts = [export_header] := by
  intro cs ts
  rfl

end Scraper

